import Mathlib

/-!
Shallow embedding of the resilient GitHub HTTP client of `ursabot/utils.py`
(`HTTPClientService._prepareRequest`, `GithubClientService.__init__`,
`startService`, `_set_token`, `rate_limit`, `rotate_tokens`, `_do_request`),
together with proofs of the specified properties of credential rotation,
retry handling and header merging.

Python dictionaries are modelled as association lists with unique keys
(`Dict`), the `itertools.cycle` iterator over the token list as the token
list plus a cursor index, exceptions as an `Except` result, and the remote
world as two oracles: `respOf` (the response returned by the transport for
the n-th attempt of a logical request) and `quota` (the remaining quota
reported by the `/rate_limit` endpoint for a given token, i.e. the value of
`rate_limit(token)`; quotas are assumed stable while one operation runs).
-/

set_option autoImplicit false

namespace Ursabot

/-- A Python `dict` with string keys and values, as an association list.
Real dicts have unique keys; lookups read the first matching entry. -/
abbrev Dict := List (String × String)

/-- `d.get(k)` / `k in d`: first entry with key `k`, if any. -/
def dictLookup (d : Dict) (k : String) : Option String :=
  (d.find? (fun p => p.1 == k)).map (fun p => p.2)

/-- Python dict assignment `d[k] = v`: replace the value in place if the key
is present, otherwise append the new entry at the end. -/
def dictInsert : Dict → String → String → Dict
  | [], k, v => [(k, v)]
  | p :: ps, k, v => if p.1 == k then (k, v) :: ps else p :: dictInsert ps k v

/-- The dict-merge `d | e` used by the literal `{**d, **e}`: insert every
entry of `e` into `d` in order, later keys overriding. -/
def dictUpdate (d : Dict) (e : Dict) : Dict :=
  e.foldl (fun acc p => dictInsert acc p.1 p.2) d

/-- Python `d.setdefault(k, v)`: insert only when the key is absent. -/
def dictSetdefault (d : Dict) (k v : String) : Dict :=
  if (dictLookup d k).isSome then d else d ++ [(k, v)]

/-- `HTTPClientService._prepareRequest`: the headers actually attached to an
outgoing request are `\x7b**default_headers, **headers\x7d` where
`default_headers = self._headers or \x7b\x7d` and `headers` is the
caller-supplied mapping (`None` meaning none were given). -/
def prepareRequestHeaders (defaultHeaders : Option Dict)
    (callerHeaders : Option Dict) : Dict :=
  dictUpdate (defaultHeaders.getD []) (callerHeaders.getD [])

/-- The Python exceptions the client can raise. -/
inductive PyError where
  /-- `assert rotate_at < 5000` failing in `__init__`. -/
  | assertionError
  /-- `next()` on the empty `itertools.cycle` in `startService`. -/
  | stopIteration
  /-- `int(...)` applied to a non-numeric header value in `_do_request`. -/
  | valueError
  /-- reading the unbound local `response` after a zero-iteration loop. -/
  | nameError
  deriving Repr, DecidableEq

/-- An HTTP response as `_do_request` inspects it: its status code and the
raw `X-RateLimit-Remaining` header when present (`headers.hasHeader` /
`toolz.first(headers.getRawHeaders(...))` in the source). -/
structure Response where
  code : Nat
  rateLimitRemaining : Option String
  deriving Repr, DecidableEq

/-- Digit run of Python `int(str)`: value of a non-empty all-digit suffix. -/
def pyIntDigits : List Char → Nat → Option Nat
  | [], acc => some acc
  | c :: cs, acc =>
    if c.isDigit then pyIntDigits cs (10 * acc + (c.toNat - 48)) else none

/-- Strip leading and trailing whitespace, as `int(str)` tolerates it. -/
def pyStrip (cs : List Char) : List Char :=
  ((cs.dropWhile Char.isWhitespace).reverse.dropWhile Char.isWhitespace).reverse

/-- Python `int(str)`: optional surrounding whitespace, optional sign, then
at least one ASCII digit; `none` models the `ValueError` raise. -/
def pyInt (s : String) : Option Int :=
  match pyStrip s.toList with
  | [] => none
  | '-' :: cs =>
    match cs with
    | [] => none
    | _ :: _ => (pyIntDigits cs 0).map (fun n => -(n : Int))
  | '+' :: cs =>
    match cs with
    | [] => none
    | _ :: _ => (pyIntDigits cs 0).map (fun n => (n : Int))
  | cs => (pyIntDigits cs 0).map (fun n => (n : Int))

/-- The state of a `GithubClientService`: the fixed token list together with
the cursor of the `itertools.cycle` iterator `self._tokens` (index of the
next token the cycle will yield), `self._rotate_at`, `self._max_retries`
and the default header dict `self._headers`. -/
structure GithubClient where
  tokens : List String
  cursor : Nat
  rotate_at : Int
  max_retries : Nat
  headers : Dict
  deriving Repr, DecidableEq

/-- Element of the token ring at (cyclic) position `i`; the default value
is never read on a non-empty ring since `i % length < length`. -/
def ringGet (tokens : List String) (i : Nat) : String :=
  tokens.getD (i % tokens.length) ""

/-- One step of the `itertools.cycle` iterator: the token `next(self._tokens)`
yields together with the advanced client state. -/
def cycleNext (s : GithubClient) : String × GithubClient :=
  (ringGet s.tokens s.cursor,
   { s with cursor := (s.cursor + 1) % s.tokens.length })

/-- The state part of `cycleNext`: advance the ring cursor by one. -/
def advance (s : GithubClient) : GithubClient :=
  (cycleNext s).2

/-- `GithubClientService._set_token`: store
`Authorization: token <value>` into the default headers. -/
def set_token (s : GithubClient) (t : String) : GithubClient :=
  { s with headers := dictInsert s.headers "Authorization" ("token " ++ t) }

/-- The `Authorization` header currently attached to outgoing requests:
the active credential, as observable by the remote service. -/
def activeAuth (s : GithubClient) : Option String :=
  dictLookup s.headers "Authorization"

/-- `GithubClientService.__init__`: asserts `rotate_at < 5000`, freezes the
token list into the cycle, and defaults the `User-Agent` header. -/
def init (tokens : List String) (rotate_at : Int) (max_retries : Nat)
    (headers : Dict) : Except PyError GithubClient :=
  if rotate_at < 5000 then
    Except.ok
      { tokens := tokens
        cursor := 0
        rotate_at := rotate_at
        max_retries := max_retries
        headers := dictSetdefault headers "User-Agent" "Buildbot" }
  else
    Except.error PyError.assertionError

/-- `GithubClientService.startService`: `self._set_token(next(self._tokens))`;
`next` on the cycle of an empty token list raises `StopIteration`. -/
def startService (s : GithubClient) : Except PyError GithubClient :=
  match s.tokens with
  | [] => Except.error PyError.stopIteration
  | _ :: _ => Except.ok (set_token (advance s) (cycleNext s).1)

/-- Loop body of `GithubClientService.rotate_tokens` over
`toolz.take(self._n_tokens, self._tokens)`: lazily draw `fuel` tokens from
the cycle; probe each one's quota (`await self.rate_limit(token)`); on the
first probe strictly above `self._rotate_at`, set that token active and stop.
Returns the final state and the list of probed tokens, in probe order. -/
def rotateAux (quota : String → Int) : Nat → GithubClient → GithubClient × List String
  | 0, s => (s, [])
  | fuel + 1, s =>
    let t := (cycleNext s).1
    let s' := (cycleNext s).2
    if quota t > s.rotate_at then
      (set_token s' t, [t])
    else
      let r := rotateAux quota fuel s'
      (r.1, t :: r.2)

/-- `GithubClientService.rotate_tokens`: try at most `self._n_tokens` tokens
from the cycle; the probed-token trace is returned alongside the state. -/
def rotate_tokens (quota : String → Int) (s : GithubClient) :
    GithubClient × List String :=
  rotateAux quota s.tokens.length s

/-- State effect of one `rotate_tokens` call. -/
def rotStep (quota : String → Int) (s : GithubClient) : GithubClient :=
  (rotate_tokens quota s).1

/-- Loop of `GithubClientService._do_request` with `fuel` iterations left,
`attempt` the index of the current iteration. A 4xx response triggers a
reactive `rotate_tokens` and the next iteration; any other response ends the
loop, after a proactive `rotate_tokens` when the parsed
`X-RateLimit-Remaining` value is at most `self._rotate_at`. A present but
unparseable header raises `ValueError`; a zero-iteration loop leaves the
local `response` unbound, raising `NameError` at the final `return`.
Returns the final state, the returned response and the number of attempts. -/
def doRequestAux (respOf : Nat → Response) (quota : String → Int) :
    Nat → Nat → GithubClient → Except PyError (GithubClient × Response × Nat)
  | 0, _, _ => Except.error PyError.nameError
  | fuel + 1, attempt, s =>
    let r := respOf attempt
    if r.code / 100 = 4 then
      let s' := rotStep quota s
      match fuel with
      | 0 => Except.ok (s', r, attempt + 1)
      | fuel' + 1 => doRequestAux respOf quota (fuel' + 1) (attempt + 1) s'
    else
      match r.rateLimitRemaining with
      | none => Except.ok (s, r, attempt + 1)
      | some raw =>
        match pyInt raw with
        | none => Except.error PyError.valueError
        | some remaining =>
          if remaining ≤ s.rotate_at then
            Except.ok (rotStep quota s, r, attempt + 1)
          else
            Except.ok (s, r, attempt + 1)

/-- `GithubClientService._do_request` (the executor behind
`get`/`put`/`post`/`delete`): run the retry loop for
`range(self._max_retries)` iterations starting at attempt `0`. -/
def do_request (respOf : Nat → Response) (quota : String → Int)
    (s : GithubClient) : Except PyError (GithubClient × Response × Nat) :=
  doRequestAux respOf quota s.max_retries 0 s

/-- The `fuel` consecutive ring elements starting at cyclic position `c`:
the tokens `toolz.take(fuel, ...)` would yield from the cycle at cursor `c`. -/
def cycleFrom (tokens : List String) : Nat → Nat → List String
  | _, 0 => []
  | c, fuel + 1 => ringGet tokens c :: cycleFrom tokens (c + 1) fuel

/-- Probe trace over a flat candidate list: every candidate up to and
including the first one whose quota exceeds the threshold. -/
def probeUpto (quota : String → Int) (rotate_at : Int) : List String → List String
  | [] => []
  | t :: ts =>
    if quota t > rotate_at then [t] else t :: probeUpto quota rotate_at ts

/-! ### Dictionary lemmas and claim C7 (header merging) -/

theorem dictLookup_cons (p : String × String) (ps : Dict) (k : String) :
    dictLookup (p :: ps) k = if p.1 == k then some p.2 else dictLookup ps k := by
  by_cases h : p.1 == k
  · simp [dictLookup, List.find?_cons_of_pos, h]
  · simp only [Bool.not_eq_true] at h
    simp [dictLookup, List.find?_cons_of_neg, h]

theorem dictLookup_dictInsert_self (d : Dict) (k v : String) :
    dictLookup (dictInsert d k v) k = some v := by
  induction d with
  | nil => simp [dictInsert, dictLookup_cons, dictLookup]
  | cons p ps ih =>
    by_cases h : p.1 == k
    · simp [dictInsert, h, dictLookup_cons]
    · simp only [Bool.not_eq_true] at h
      simp [dictInsert, h, dictLookup_cons, ih]

theorem dictLookup_dictInsert_ne (d : Dict) (k v k' : String) (hk : k ≠ k') :
    dictLookup (dictInsert d k v) k' = dictLookup d k' := by
  induction d with
  | nil =>
    simp [dictInsert, dictLookup_cons, dictLookup]
    intro h
    exact absurd h hk
  | cons p ps ih =>
    by_cases h : p.1 == k
    · have hp : p.1 = k := by simpa using h
      simp [dictInsert, h, dictLookup_cons, hp, hk]
    · simp only [Bool.not_eq_true] at h
      simp [dictInsert, h, dictLookup_cons, ih]

theorem dictLookup_dictUpdate_of_not_mem :
    ∀ (e d : Dict) (k : String), (∀ p ∈ e, p.1 ≠ k) →
      dictLookup (dictUpdate d e) k = dictLookup d k := by
  intro e
  induction e with
  | nil => intro d k _; rfl
  | cons p ps ih =>
    intro d k hk
    have h1 : dictUpdate d (p :: ps) = dictUpdate (dictInsert d p.1 p.2) ps := rfl
    rw [h1, ih (dictInsert d p.1 p.2) k (fun q hq => hk q (List.mem_cons_of_mem p hq)),
      dictLookup_dictInsert_ne _ _ _ _ (hk p (List.mem_cons_self p ps))]

theorem dictLookup_dictUpdate_of_lookup_some :
    ∀ (e d : Dict) (k v : String), (e.map Prod.fst).Nodup →
      dictLookup e k = some v → dictLookup (dictUpdate d e) k = some v := by
  intro e
  induction e with
  | nil => intro d k v _ hv; simp [dictLookup] at hv
  | cons p ps ih =>
    intro d k v hnd hv
    simp only [List.map_cons, List.nodup_cons, List.mem_map] at hnd
    rw [dictLookup_cons] at hv
    have h1 : dictUpdate d (p :: ps) = dictUpdate (dictInsert d p.1 p.2) ps := rfl
    by_cases h : p.1 == k
    · have hp : p.1 = k := by simpa using h
      simp only [h, if_true, Option.some.injEq] at hv
      have hnm : ∀ q ∈ ps, q.1 ≠ k := by
        intro q hq hqk
        exact hnd.1 ⟨q, hq, by rw [hqk, ← hp]⟩
      rw [h1, dictLookup_dictUpdate_of_not_mem ps _ k hnm, hp,
        dictLookup_dictInsert_self, hv]
    · simp only [Bool.not_eq_true] at h
      simp only [h, Bool.false_eq_true, if_false] at hv
      rw [h1]
      exact ih (dictInsert d p.1 p.2) k v hnd.2 hv

/-- Claim C7: the headers sent with a request are the merge of the default
headers with the caller-supplied ones: for a name present in the caller's
dict the caller's value is used, and a default whose name is absent from the
caller's dict is preserved unchanged. (Caller dicts have unique keys.) -/
theorem prepareRequestHeaders_caller_wins_defaults_preserved
    (defaults caller : Dict) (k : String)
    (hnd : (caller.map Prod.fst).Nodup) :
    (∀ v, dictLookup caller k = some v →
      dictLookup (prepareRequestHeaders (some defaults) (some caller)) k = some v) ∧
    (dictLookup caller k = none →
      dictLookup (prepareRequestHeaders (some defaults) (some caller)) k
        = dictLookup defaults k) := by
  constructor
  · intro v hv
    exact dictLookup_dictUpdate_of_lookup_some caller defaults k v hnd hv
  · intro hnone
    simp only [prepareRequestHeaders, Option.getD_some]
    have hfind : caller.find? (fun p => p.1 == k) = none := by
      simpa [dictLookup, Option.map_eq_none'] using hnone
    have hnm : ∀ p ∈ caller, p.1 ≠ k := by
      intro p hp hpk
      have := List.find?_eq_none.mp hfind p hp
      simp [hpk] at this
    exact dictLookup_dictUpdate_of_not_mem caller defaults k hnm

/-- Witness for C7 at a concrete input: the caller overrides the
`Authorization` default while the `User-Agent` default is preserved. -/
theorem prepareRequestHeaders_caller_wins_defaults_preserved_witness :
    (∀ v, dictLookup [("Authorization", "token x")] "Authorization" = some v →
      dictLookup (prepareRequestHeaders
        (some [("User-Agent", "Buildbot"), ("Authorization", "token a")])
        (some [("Authorization", "token x")])) "Authorization" = some v) ∧
    (dictLookup [("Authorization", "token x")] "Authorization" = none →
      dictLookup (prepareRequestHeaders
        (some [("User-Agent", "Buildbot"), ("Authorization", "token a")])
        (some [("Authorization", "token x")])) "Authorization"
        = dictLookup [("User-Agent", "Buildbot"), ("Authorization", "token a")]
            "Authorization") :=
  prepareRequestHeaders_caller_wins_defaults_preserved
    [("User-Agent", "Buildbot"), ("Authorization", "token a")]
    [("Authorization", "token x")] "Authorization" (by decide)

/-! ### Claim C9 (round-robin ring) -/

theorem advance_iterate (k : Nat) (s : GithubClient)
    (hc : s.cursor < s.tokens.length) :
    advance^[k] s = { s with cursor := (s.cursor + k) % s.tokens.length } := by
  induction k generalizing s with
  | zero =>
    simp only [Function.iterate_zero, id_eq, Nat.add_zero, Nat.mod_eq_of_lt hc]
  | succ k ih =>
    have hn : 0 < s.tokens.length := Nat.lt_of_le_of_lt (Nat.zero_le _) hc
    rw [Function.iterate_succ_apply,
      ih (advance s) (Nat.mod_lt _ hn)]
    show { s with cursor := ((s.cursor + 1) % s.tokens.length + k) % s.tokens.length }
        = { s with cursor := (s.cursor + (k + 1)) % s.tokens.length }
    have : ((s.cursor + 1) % s.tokens.length + k) % s.tokens.length
        = (s.cursor + (k + 1)) % s.tokens.length := by
      rw [Nat.mod_add_mod]
      congr 1
      omega
    rw [this]

/-- Claim C9: on a non-empty ring of size N (with its cursor in range),
advancing the cursor N times returns the ring to exactly its original
state, so the original active position is current again: pure round-robin,
nothing skipped, removed or inserted. -/
theorem advance_length_times_returns_to_start (s : GithubClient)
    (_h0 : s.tokens ≠ []) (hc : s.cursor < s.tokens.length) :
    advance^[s.tokens.length] s = s ∧
    (cycleNext (advance^[s.tokens.length] s)).1 = (cycleNext s).1 := by
  have hfix : advance^[s.tokens.length] s = s := by
    rw [advance_iterate s.tokens.length s hc]
    show { s with cursor := (s.cursor + s.tokens.length) % s.tokens.length } = s
    rw [Nat.add_mod_right, Nat.mod_eq_of_lt hc]
  exact ⟨hfix, by rw [hfix]⟩

/-- A concrete started client over three credentials, for witnesses. -/
def abcClient : GithubClient :=
  { tokens := ["a", "b", "c"], cursor := 0, rotate_at := 1000,
    max_retries := 5, headers := [] }

/-- Witness for C9: a concrete three-credential ring returns to its initial
state after three advances. -/
theorem advance_length_times_returns_to_start_witness :
    advance^[abcClient.tokens.length] abcClient = abcClient ∧
    (cycleNext (advance^[abcClient.tokens.length] abcClient)).1
      = (cycleNext abcClient).1 :=
  advance_length_times_returns_to_start abcClient (by decide) (by decide)

/-! ### Claim C8 (empty credential list), C10 (zero retry budget),
C4 (malformed quota header) -/

/-- Counterexample to C8 as stated: constructing the client with an empty
credential list does not throw; `__init__` only asserts the rotation
threshold bound, and `itertools.cycle([])` is created without error, so
construction succeeds. -/
theorem init_empty_credentials_succeeds :
    init [] 1000 5 [] =
      Except.ok
        { tokens := [], cursor := 0, rotate_at := 1000, max_retries := 5,
          headers := [("User-Agent", "Buildbot")] } := rfl

/-- Claim C8 amended: constructing the client with an empty credential list
succeeds whenever the threshold assertion passes; the failure surfaces only
later, as the `StopIteration` raised by drawing the first credential from
the empty cycle when the service starts. -/
theorem init_empty_credentials_fails_at_startService
    (rotate_at : Int) (max_retries : Nat) (headers : Dict)
    (ha : rotate_at < 5000) :
    ∃ s, init [] rotate_at max_retries headers = Except.ok s ∧
      startService s = Except.error PyError.stopIteration := by
  refine ⟨{ tokens := [], cursor := 0, rotate_at := rotate_at,
            max_retries := max_retries,
            headers := dictSetdefault headers "User-Agent" "Buildbot" },
    ?_, rfl⟩
  simp only [init, if_pos ha]

/-- Witness for the amended C8 at the default configuration values. -/
theorem init_empty_credentials_fails_at_startService_witness :
    ∃ s, init [] 1000 5 [] = Except.ok s ∧
      startService s = Except.error PyError.stopIteration :=
  init_empty_credentials_fails_at_startService 1000 5 [] (by decide)

/-- Claim C10: with `max_retries = 0` the retry loop of `_do_request` runs
zero iterations, so the final `return response` reads an unbound local and
every call fails with a `NameError` instead of returning a response; and
this precondition is not validated at construction, whose only assertion is
on the rotation threshold. -/
theorem do_request_zero_retries_unbound_local
    (respOf : Nat → Response) (quota : String → Int) (s : GithubClient)
    (h : s.max_retries = 0) :
    do_request respOf quota s = Except.error PyError.nameError ∧
    (∀ (tokens : List String) (rotate_at : Int) (headers : Dict),
      rotate_at < 5000 →
      ∃ c, init tokens rotate_at 0 headers = Except.ok c ∧
        c.max_retries = 0) := by
  constructor
  · rw [do_request, h]
    rfl
  · intro tokens rotate_at headers hlt
    refine ⟨{ tokens := tokens, cursor := 0, rotate_at := rotate_at,
              max_retries := 0,
              headers := dictSetdefault headers "User-Agent" "Buildbot" },
      ?_, rfl⟩
    simp only [init, if_pos hlt]

/-- Witness for C10: a concrete zero-retry client fails with `NameError`
on a request whose transport would have answered 200. -/
theorem do_request_zero_retries_unbound_local_witness :
    do_request (fun _ => { code := 200, rateLimitRemaining := none })
        (fun _ => 5000)
        { tokens := ["a"], cursor := 0, rotate_at := 1000, max_retries := 0,
          headers := [] }
      = Except.error PyError.nameError ∧
    (∀ (tokens : List String) (rotate_at : Int) (headers : Dict),
      rotate_at < 5000 →
      ∃ c, init tokens rotate_at 0 headers = Except.ok c ∧
        c.max_retries = 0) :=
  do_request_zero_retries_unbound_local _ _ _ rfl

/-- Claim C4 fails on the code (the spec states the intent): a present but
unparseable `X-RateLimit-Remaining` header is fed to `int(...)` with no
guard, so the `ValueError` propagates and the whole request fails instead
of the quota extraction alone degrading to a missing signal. Evaluated at
the failing input: a 200 response carrying the header value `xyz`. -/
theorem malformed_quota_header_fails_whole_request :
    pyInt "xyz" = none ∧
    do_request (fun _ => { code := 200, rateLimitRemaining := some "xyz" })
        (fun _ => 5000) abcClient
      = Except.error PyError.valueError :=
  ⟨rfl, rfl⟩

/-! ### Ring-cycle lemmas -/

theorem ringGet_mod (tokens : List String) (i : Nat) :
    ringGet tokens (i % tokens.length) = ringGet tokens i := by
  rw [ringGet, ringGet, Nat.mod_mod_of_dvd _ dvd_rfl]

theorem cycleFrom_congr (tokens : List String) :
    ∀ (k a b : Nat), a % tokens.length = b % tokens.length →
      cycleFrom tokens a k = cycleFrom tokens b k := by
  intro k
  induction k with
  | zero => intro a b _; rfl
  | succ k ih =>
    intro a b h
    show ringGet tokens a :: cycleFrom tokens (a + 1) k
        = ringGet tokens b :: cycleFrom tokens (b + 1) k
    rw [ringGet, ringGet, h, ih (a + 1) (b + 1) (by
      rw [Nat.add_mod a 1, Nat.add_mod b 1, h])]

theorem cycleFrom_length (tokens : List String) :
    ∀ (k c : Nat), (cycleFrom tokens c k).length = k := by
  intro k
  induction k with
  | zero => intro c; rfl
  | succ k ih => intro c; simp [cycleFrom, ih (c + 1)]

theorem cycleFrom_append (tokens : List String) :
    ∀ (j k c : Nat),
      cycleFrom tokens c (j + k)
        = cycleFrom tokens c j ++ cycleFrom tokens (c + j) k := by
  intro j
  induction j with
  | zero => intro k c; simp [cycleFrom]
  | succ j ih =>
    intro k c
    have h1 : j + 1 + k = (j + k) + 1 := by omega
    rw [h1]
    show ringGet tokens c :: cycleFrom tokens (c + 1) (j + k) = _
    rw [ih k (c + 1)]
    show ringGet tokens c :: (cycleFrom tokens (c + 1) j ++ cycleFrom tokens (c + 1 + j) k)
        = (ringGet tokens c :: cycleFrom tokens (c + 1) j) ++ cycleFrom tokens (c + (j + 1)) k
    rw [List.cons_append, show c + 1 + j = c + (j + 1) by omega]

theorem cycleFrom_take (tokens : List String) :
    ∀ (k c : Nat), c + k ≤ tokens.length →
      cycleFrom tokens c k = (tokens.drop c).take k := by
  intro k
  induction k with
  | zero => intro c _; simp [cycleFrom]
  | succ k ih =>
    intro c h
    have hc : c < tokens.length := by omega
    show ringGet tokens c :: cycleFrom tokens (c + 1) k = (tokens.drop c).take (k + 1)
    rw [List.drop_eq_getElem_cons hc, List.take_succ_cons, ih (c + 1) (by omega)]
    rw [ringGet, Nat.mod_eq_of_lt hc, List.getD_eq_getElem tokens "" hc]

/-- One full cycle from any position is a rotation of the token list, hence
a permutation of it. -/
theorem cycleFrom_full_perm (tokens : List String) (c : Nat)
    (hn : 0 < tokens.length) :
    (cycleFrom tokens c tokens.length).Perm tokens := by
  set n := tokens.length with hdefn
  have hcmod : cycleFrom tokens c n = cycleFrom tokens (c % n) n :=
    (cycleFrom_congr tokens n (c % n) c (Nat.mod_mod_of_dvd _ dvd_rfl)).symm
  have hlt : c % n < n := Nat.mod_lt _ hn
  have hsplit : n = (n - c % n) + (c % n) := by omega
  have h1 : cycleFrom tokens (c % n) n
      = cycleFrom tokens (c % n) (n - c % n)
        ++ cycleFrom tokens (c % n + (n - c % n)) (c % n) := by
    have ha := cycleFrom_append tokens (n - c % n) (c % n) (c % n)
    rw [show n - c % n + c % n = n by omega] at ha
    exact ha
  have h2 : cycleFrom tokens (c % n) (n - c % n) = tokens.drop (c % n) := by
    rw [cycleFrom_take tokens (n - c % n) (c % n) (by omega)]
    exact List.take_of_length_le (by simp [hdefn])
  have h3 : cycleFrom tokens (c % n + (n - c % n)) (c % n) = tokens.take (c % n) := by
    have he : c % n + (n - c % n) = n := by omega
    rw [he]
    have h4 : cycleFrom tokens n (c % n) = cycleFrom tokens 0 (c % n) :=
      cycleFrom_congr tokens (c % n) n 0 (by simp)
    rw [h4, cycleFrom_take tokens (c % n) 0 (by omega), List.drop_zero]
  rw [hcmod, h1, h2, h3]
  refine List.Perm.trans List.perm_append_comm ?_
  rw [List.take_append_drop]

/-! ### Probe-trace lemmas -/

theorem probeUpto_prefix (quota : String → Int) (a : Int) :
    ∀ l : List String, probeUpto quota a l <+: l := by
  intro l
  induction l with
  | nil => exact ⟨[], rfl⟩
  | cons t ts ih =>
    by_cases h : quota t > a
    · exact ⟨ts, by simp [probeUpto, if_pos h]⟩
    · obtain ⟨u, hu⟩ := ih
      exact ⟨u, by simp only [probeUpto, if_neg h, List.cons_append, hu]⟩

theorem probeUpto_of_all_le (quota : String → Int) (a : Int) :
    ∀ l : List String, (∀ t ∈ l, ¬ quota t > a) → probeUpto quota a l = l := by
  intro l
  induction l with
  | nil => intro _; rfl
  | cons t ts ih =>
    intro h
    rw [probeUpto, if_neg (h t (List.mem_cons_self t ts)),
      ih (fun u hu => h u (List.mem_cons_of_mem t hu))]

theorem probeUpto_find?_some (quota : String → Int) (a : Int) :
    ∀ (l : List String) (t : String),
      l.find? (fun u => decide (quota u > a)) = some t →
      (probeUpto quota a l).getLast? = some t ∧
      ∀ u ∈ (probeUpto quota a l).dropLast, ¬ quota u > a := by
  intro l
  induction l with
  | nil => intro t h; simp [List.find?] at h
  | cons x xs ih =>
    intro t h
    by_cases hx : quota x > a
    · rw [List.find?_cons_of_pos _ (by simpa using hx)] at h
      obtain rfl : x = t := by simpa using h
      constructor
      · simp [probeUpto, if_pos hx]
      · simp [probeUpto, if_pos hx]
    · rw [List.find?_cons_of_neg _ (by simpa using hx)] at h
      obtain ⟨h1, h2⟩ := ih t h
      have hpu : probeUpto quota a (x :: xs) = x :: probeUpto quota a xs := by
        rw [probeUpto, if_neg hx]
      cases hpe : probeUpto quota a xs with
      | nil => rw [hpe] at h1; simp at h1
      | cons y ys =>
        rw [hpe] at h1 h2
        constructor
        · rw [hpu, hpe, List.getLast?_cons_cons]
          exact h1
        · intro u hu
          rw [hpu, hpe, List.dropLast_cons₂] at hu
          rcases List.mem_cons.mp hu with rfl | hu'
          · exact hx
          · exact h2 u hu'

/-! ### Characterization of rotate_tokens and claim C1 -/

/-- The rotation loop over `fuel` lazily drawn cycle elements, described over
the flat list `cycleFrom`: the probe trace is `probeUpto` of that list, the
configuration fields are untouched, and the headers either receive the first
element whose quota exceeds the threshold or are left unchanged. -/
theorem rotateAux_char (quota : String → Int) :
    ∀ (fuel : Nat) (s : GithubClient),
      (rotateAux quota fuel s).2
          = probeUpto quota s.rotate_at (cycleFrom s.tokens s.cursor fuel) ∧
      (rotateAux quota fuel s).1.tokens = s.tokens ∧
      (rotateAux quota fuel s).1.rotate_at = s.rotate_at ∧
      (rotateAux quota fuel s).1.max_retries = s.max_retries ∧
      (match (cycleFrom s.tokens s.cursor fuel).find?
          (fun t => decide (quota t > s.rotate_at)) with
       | some t => (rotateAux quota fuel s).1.headers
           = dictInsert s.headers "Authorization" ("token " ++ t)
       | none => (rotateAux quota fuel s).1.headers = s.headers) := by
  intro fuel
  induction fuel with
  | zero =>
    intro s
    exact ⟨rfl, rfl, rfl, rfl, rfl⟩
  | succ fuel ih =>
    intro s
    have hcyc : cycleFrom s.tokens s.cursor (fuel + 1)
        = ringGet s.tokens s.cursor :: cycleFrom s.tokens (s.cursor + 1) fuel := rfl
    by_cases hq : quota (ringGet s.tokens s.cursor) > s.rotate_at
    · have hr : rotateAux quota (fuel + 1) s
          = (set_token { s with cursor := (s.cursor + 1) % s.tokens.length }
              (ringGet s.tokens s.cursor), [ringGet s.tokens s.cursor]) := by
        simp only [rotateAux, cycleNext, if_pos hq]
      rw [hr, hcyc]
      refine ⟨by simp [probeUpto, if_pos hq], rfl, rfl, rfl, ?_⟩
      rw [List.find?_cons_of_pos _ (by simpa using hq)]
      rfl
    · have hr : rotateAux quota (fuel + 1) s
          = ((rotateAux quota fuel
                { s with cursor := (s.cursor + 1) % s.tokens.length }).1,
             ringGet s.tokens s.cursor ::
               (rotateAux quota fuel
                 { s with cursor := (s.cursor + 1) % s.tokens.length }).2) := by
        simp only [rotateAux, cycleNext, if_neg hq]
      obtain ⟨ih1, ih2, ih3, ih4, ih5⟩ :=
        ih { s with cursor := (s.cursor + 1) % s.tokens.length }
      have hcyc' : cycleFrom s.tokens ((s.cursor + 1) % s.tokens.length) fuel
          = cycleFrom s.tokens (s.cursor + 1) fuel :=
        cycleFrom_congr s.tokens fuel _ _ (Nat.mod_mod_of_dvd _ dvd_rfl)
    -- the recursive state has the same tokens, threshold and headers
      rw [hr, hcyc]
      refine ⟨?_, ih2, ih3, ih4, ?_⟩
      · show ringGet s.tokens s.cursor :: _ = probeUpto quota s.rotate_at _
        rw [probeUpto, if_neg hq, ih1]
        show _ :: probeUpto quota s.rotate_at
            (cycleFrom s.tokens ((s.cursor + 1) % s.tokens.length) fuel) = _
        rw [hcyc']
      · rw [List.find?_cons_of_neg _ (by simpa using hq)]
        rw [hcyc'] at ih5
        exact ih5

/-- Claim C1: one invocation of `rotate_tokens` probes ring positions in
ring order over at most one full cycle starting at the cursor (the probe
trace is a prefix of that full cycle, so each position is probed at most
once and at most `N` probes are issued); the active credential is set to
the first probed token whose quota strictly exceeds the rotation threshold
(every earlier probe was at or below it), and when no token of the full
cycle exceeds the threshold the whole cycle is probed and the active
credential is left unchanged. -/
theorem rotate_tokens_ring_order_first_above_threshold
    (quota : String → Int) (s : GithubClient) :
    ((rotate_tokens quota s).2 <+: cycleFrom s.tokens s.cursor s.tokens.length) ∧
    (rotate_tokens quota s).2.length ≤ s.tokens.length ∧
    (match (cycleFrom s.tokens s.cursor s.tokens.length).find?
        (fun t => decide (quota t > s.rotate_at)) with
     | some t =>
         activeAuth (rotate_tokens quota s).1 = some ("token " ++ t) ∧
         (rotate_tokens quota s).2.getLast? = some t ∧
         ∀ u ∈ (rotate_tokens quota s).2.dropLast, ¬ quota u > s.rotate_at
     | none =>
         activeAuth (rotate_tokens quota s).1 = activeAuth s ∧
         (rotate_tokens quota s).2 = cycleFrom s.tokens s.cursor s.tokens.length) := by
  obtain ⟨h1, _, _, _, h5⟩ := rotateAux_char quota s.tokens.length s
  have hpre : (rotate_tokens quota s).2 <+:
      cycleFrom s.tokens s.cursor s.tokens.length := by
    rw [show (rotate_tokens quota s).2 = (rotateAux quota s.tokens.length s).2 from rfl,
      h1]
    exact probeUpto_prefix quota s.rotate_at _
  refine ⟨hpre, ?_, ?_⟩
  · have := hpre.length_le
    rwa [cycleFrom_length] at this
  · cases hfind : (cycleFrom s.tokens s.cursor s.tokens.length).find?
        (fun t => decide (quota t > s.rotate_at)) with
    | none =>
      rw [hfind] at h5
      have h5' : (rotateAux quota s.tokens.length s).1.headers = s.headers := h5
      constructor
      · show dictLookup (rotateAux quota s.tokens.length s).1.headers "Authorization"
            = dictLookup s.headers "Authorization"
        rw [h5']
      · show (rotateAux quota s.tokens.length s).2 = _
        rw [h1]
        exact probeUpto_of_all_le quota s.rotate_at _ (fun t ht => by
          have := List.find?_eq_none.mp hfind t ht
          simpa using this)
    | some t =>
      rw [hfind] at h5
      have h5' : (rotateAux quota s.tokens.length s).1.headers
          = dictInsert s.headers "Authorization" ("token " ++ t) := h5
      obtain ⟨hl, hd⟩ := probeUpto_find?_some quota s.rotate_at _ t hfind
      refine ⟨?_, ?_, ?_⟩
      · show dictLookup (rotateAux quota s.tokens.length s).1.headers "Authorization"
            = some ("token " ++ t)
        rw [h5', dictLookup_dictInsert_self]
      · show ((rotateAux quota s.tokens.length s).2).getLast? = some t
        rw [h1]; exact hl
      · show ∀ u ∈ ((rotateAux quota s.tokens.length s).2).dropLast, _
        rw [h1]; exact hd

/-! ### Claim C3 (idempotence of rotation) -/

/-- A `rotate_tokens` call either selects some ring token whose quota
exceeds the threshold, or, when no ring token qualifies, leaves the active
credential unchanged. -/
theorem rotate_tokens_active_cases (quota : String → Int) (s : GithubClient) :
    (∃ t, t ∈ s.tokens ∧ quota t > s.rotate_at ∧
      activeAuth (rotStep quota s) = some ("token " ++ t)) ∨
    ((∀ t ∈ s.tokens, ¬ quota t > s.rotate_at) ∧
      activeAuth (rotStep quota s) = activeAuth s) := by
  obtain ⟨_, _, _, _, h5⟩ := rotateAux_char quota s.tokens.length s
  rcases Nat.eq_zero_or_pos s.tokens.length with hn | hn
  · right
    constructor
    · intro t ht
      rw [List.length_eq_zero.mp hn] at ht
      simp at ht
    · show activeAuth (rotateAux quota s.tokens.length s).1 = activeAuth s
      rw [hn]
      rfl
  · have hperm := cycleFrom_full_perm s.tokens s.cursor hn
    cases hfind : (cycleFrom s.tokens s.cursor s.tokens.length).find?
        (fun t => decide (quota t > s.rotate_at)) with
    | some t =>
      rw [hfind] at h5
      have h5' : (rotateAux quota s.tokens.length s).1.headers
          = dictInsert s.headers "Authorization" ("token " ++ t) := h5
      left
      refine ⟨t, ?_, ?_, ?_⟩
      · exact hperm.mem_iff.mp (List.mem_of_find?_eq_some hfind)
      · simpa using List.find?_some hfind
      · show dictLookup (rotateAux quota s.tokens.length s).1.headers "Authorization"
            = some ("token " ++ t)
        rw [h5', dictLookup_dictInsert_self]
    | none =>
      rw [hfind] at h5
      have h5' : (rotateAux quota s.tokens.length s).1.headers = s.headers := h5
      right
      constructor
      · intro t ht hq
        have := List.find?_eq_none.mp hfind t (hperm.mem_iff.mpr ht)
        simp [hq] at this
      · show dictLookup (rotateAux quota s.tokens.length s).1.headers "Authorization"
            = dictLookup s.headers "Authorization"
        rw [h5']

/-- A concrete two-credential client with both quotas above the threshold. -/
def twoTokenClient : GithubClient :=
  { tokens := ["a", "b"], cursor := 0, rotate_at := 1000,
    max_retries := 5, headers := [] }

/-- Counterexample to C3 as stated: with ring `a, b` and both remote quotas
fixed at 2000 (threshold 1000), the first rotation selects `a` but an
immediately following rotation selects `b`, because the cycle cursor has
moved past the token just selected. The two selections differ. -/
theorem rotate_tokens_twice_differs_counterexample :
    activeAuth (rotStep (fun _ => 2000) (rotStep (fun _ => 2000) twoTokenClient))
      ≠ activeAuth (rotStep (fun _ => 2000) twoTokenClient) := by decide

/-- Claim C3 amended: consecutive rotations with unchanged remote quotas
make the same selection provided at most one credential value qualifies
(its quota exceeds the threshold): under that proviso the active credential
after the second call equals the active credential after the first. -/
theorem rotate_tokens_twice_same_selection_of_unique
    (quota : String → Int) (s : GithubClient)
    (huniq : ∀ t₁ ∈ s.tokens, ∀ t₂ ∈ s.tokens,
      quota t₁ > s.rotate_at → quota t₂ > s.rotate_at → t₁ = t₂) :
    activeAuth (rotStep quota (rotStep quota s))
      = activeAuth (rotStep quota s) := by
  obtain ⟨_, htok, hrot, _, _⟩ := rotateAux_char quota s.tokens.length s
  have htok1 : (rotStep quota s).tokens = s.tokens := htok
  have hrot1 : (rotStep quota s).rotate_at = s.rotate_at := hrot
  rcases rotate_tokens_active_cases quota s with ⟨t, htm, htq, hact⟩ | ⟨hall, hact⟩
  · rcases rotate_tokens_active_cases quota (rotStep quota s) with
      ⟨t', htm', htq', hact'⟩ | ⟨hall', hact'⟩
    · rw [htok1] at htm'
      rw [hrot1] at htq'
      rw [hact', hact, huniq t' htm' t htm htq' htq]
    · exact absurd htq (by
        have := hall' t (by rw [htok1]; exact htm)
        rwa [hrot1] at this)
  · rcases rotate_tokens_active_cases quota (rotStep quota s) with
      ⟨t', htm', htq', _⟩ | ⟨_, hact'⟩
    · rw [htok1] at htm'
      rw [hrot1] at htq'
      exact absurd htq' (hall t' htm')
    · rw [hact']

/-- Witness for the amended C3: with only `a` qualifying, both consecutive
rotations select `a`. -/
theorem rotate_tokens_twice_same_selection_of_unique_witness :
    activeAuth (rotStep (fun t => if t == "a" then 2000 else 0)
        (rotStep (fun t => if t == "a" then 2000 else 0) twoTokenClient))
      = activeAuth (rotStep (fun t => if t == "a" then 2000 else 0) twoTokenClient) :=
  rotate_tokens_twice_same_selection_of_unique _ twoTokenClient (by decide)

/-! ### Retry-loop lemmas and claims C2 and C5 -/

/-- A run of `j` consecutive 4xx attempts advances the retry loop `j`
iterations, each performing one reactive rotation. -/
theorem doRequestAux_skip (respOf : Nat → Response) (quota : String → Int) :
    ∀ (j fuel attempt : Nat) (s : GithubClient), j < fuel →
      (∀ i, i < j → (respOf (attempt + i)).code / 100 = 4) →
      doRequestAux respOf quota fuel attempt s
        = doRequestAux respOf quota (fuel - j) (attempt + j)
            ((rotStep quota)^[j] s) := by
  intro j
  induction j with
  | zero => intro fuel attempt s _ _; simp
  | succ j ih =>
    intro fuel attempt s hj h4
    obtain ⟨f1, rfl⟩ : ∃ f1, fuel = f1 + 1 := ⟨fuel - 1, by omega⟩
    have hf1 : j < f1 := by omega
    have h40 : (respOf attempt).code / 100 = 4 := by simpa using h4 0 (by omega)
    have hstep : doRequestAux respOf quota (f1 + 1) attempt s
        = doRequestAux respOf quota f1 (attempt + 1) (rotStep quota s) := by
      obtain ⟨f2, rfl⟩ : ∃ f2, f1 = f2 + 1 := ⟨f1 - 1, by omega⟩
      conv_lhs => rw [doRequestAux]
      simp [h40]
    rw [hstep, ih f1 (attempt + 1) (rotStep quota s) hf1 (fun i hi => by
      have := h4 (i + 1) (by omega)
      rwa [show attempt + (i + 1) = attempt + 1 + i by omega] at this)]
    rw [show f1 + 1 - (j + 1) = f1 - j by omega,
      show attempt + 1 + j = attempt + (j + 1) by omega,
      Function.iterate_succ_apply]

/-- Claim C2: if every one of the first `K` attempts of a logical request
receives a 4xx response, then with retry budget `K ≥ 1` the executor makes
exactly `K` attempts and returns the `K`-th response as an ordinary value
(an `ok` result, never an exception). -/
theorem do_request_all_4xx_exhausts_budget
    (respOf : Nat → Response) (quota : String → Int) (s : GithubClient)
    (K : Nat) (hK : s.max_retries = K) (h1 : 1 ≤ K)
    (h4 : ∀ i, i < K → (respOf i).code / 100 = 4) :
    ∃ s', do_request respOf quota s = Except.ok (s', respOf (K - 1), K) := by
  obtain ⟨k, rfl⟩ : ∃ k, K = k + 1 := ⟨K - 1, by omega⟩
  have hskip := doRequestAux_skip respOf quota k (k + 1) 0 s (by omega)
      (fun i hi => by simpa using h4 i (by omega))
  rw [do_request, hK, hskip, show k + 1 - k = 1 by omega, Nat.zero_add]
  refine ⟨rotStep quota ((rotStep quota)^[k] s), ?_⟩
  have h4k := h4 k (by omega)
  conv_lhs => rw [doRequestAux]
  simp [h4k]

/-- A two-credential client with retry budget 2, for the C2 witness. -/
def twoTokenBudget2 : GithubClient :=
  { tokens := ["a", "b"], cursor := 0, rotate_at := 1000,
    max_retries := 2, headers := [] }

/-- Witness for C2: two credentials, budget 2, all attempts answered 403;
the second response is returned after exactly two attempts. -/
theorem do_request_all_4xx_exhausts_budget_witness :
    ∃ s', do_request (fun _ => { code := 403, rateLimitRemaining := none })
        (fun _ => 0) twoTokenBudget2
      = Except.ok (s',
          (fun _ => ({ code := 403, rateLimitRemaining := none } : Response)) (2 - 1),
          2) :=
  do_request_all_4xx_exhausts_budget
    (fun _ => { code := 403, rateLimitRemaining := none }) (fun _ => 0)
    twoTokenBudget2 2 rfl (by decide) (fun i _ => by norm_num)

/-- Configuration fields are invariant under iterated rotation. -/
theorem rotStep_iterate_fields (quota : String → Int) :
    ∀ (j : Nat) (s : GithubClient),
      ((rotStep quota)^[j] s).tokens = s.tokens ∧
      ((rotStep quota)^[j] s).rotate_at = s.rotate_at ∧
      ((rotStep quota)^[j] s).max_retries = s.max_retries := by
  intro j
  induction j with
  | zero => intro s; exact ⟨rfl, rfl, rfl⟩
  | succ j ih =>
    intro s
    obtain ⟨_, ht, hr, hm, _⟩ := rotateAux_char quota s.tokens.length s
    obtain ⟨iht, ihr, ihm⟩ := ih (rotStep quota s)
    rw [Function.iterate_succ_apply]
    exact ⟨iht.trans ht, ihr.trans hr, ihm.trans hm⟩

/-- Counterexample to C5 as stated: an attempt answered with a non-4xx
response (here 500) whose `X-RateLimit-Remaining` header is present but
malformed is not returned to the caller at all: the unguarded `int(...)`
raises and the request fails, consuming the success path. -/
theorem non4xx_with_malformed_header_not_returned_counterexample :
    ¬ (500 : Nat) / 100 = 4 ∧
    do_request (fun _ => { code := 500, rateLimitRemaining := some "oops" })
        (fun _ => 0) twoTokenClient
      = Except.error PyError.valueError :=
  ⟨by norm_num, rfl⟩

/-- Claim C5 amended with parseable-or-absent quota headers (the excluded
case is the unguarded-int slip recorded at C4): an attempt whose response
is non-4xx (2xx or 5xx alike) ends
the loop: the executor returns that very response having consumed exactly
the attempts so far and no further retry budget; when the response carries
a parseable quota signal at or below the threshold a proactive rotation
runs first, and otherwise the state is left as the reactive rotations of
the earlier 4xx attempts produced it — the response returned to the caller
is the same in every case. -/
theorem do_request_returns_first_non4xx
    (respOf : Nat → Response) (quota : String → Int) (s : GithubClient)
    (j : Nat) (hj : j < s.max_retries)
    (h4 : ∀ i, i < j → (respOf i).code / 100 = 4)
    (hn : ¬ (respOf j).code / 100 = 4)
    (hwf : ∀ raw, (respOf j).rateLimitRemaining = some raw → (pyInt raw).isSome) :
    do_request respOf quota s
      = Except.ok
          (match (respOf j).rateLimitRemaining with
           | none => (rotStep quota)^[j] s
           | some raw =>
             match pyInt raw with
             | none => (rotStep quota)^[j] s
             | some remaining =>
               if remaining ≤ s.rotate_at
               then rotStep quota ((rotStep quota)^[j] s)
               else (rotStep quota)^[j] s,
           respOf j, j + 1) := by
  have hskip := doRequestAux_skip respOf quota j s.max_retries 0 s hj
      (fun i hi => by simpa using h4 i hi)
  rw [do_request, hskip, Nat.zero_add]
  obtain ⟨f1, hf1⟩ : ∃ f1, s.max_retries - j = f1 + 1 :=
    ⟨s.max_retries - j - 1, by omega⟩
  rw [hf1]
  have hrotj : ((rotStep quota)^[j] s).rotate_at = s.rotate_at :=
    (rotStep_iterate_fields quota j s).2.1
  cases hrem : (respOf j).rateLimitRemaining with
  | none =>
    conv_lhs => rw [doRequestAux]
    simp [hn, hrem]
  | some raw =>
    cases hpi : pyInt raw with
    | none => exact absurd (hwf raw hrem) (by simp [hpi])
    | some remaining =>
      by_cases hle : remaining ≤ s.rotate_at
      · conv_lhs => rw [doRequestAux]
        simp [hn, hrem, hpi, hrotj, hle]
      · conv_lhs => rw [doRequestAux]
        simp [hn, hrem, hpi, hrotj, hle]

/-- Witness for C5: a first-attempt 200 response with remaining quota 4999
(above the threshold 1000) is returned unchanged after one attempt, with
no rotation. -/
theorem do_request_returns_first_non4xx_witness :
    do_request (fun _ => { code := 200, rateLimitRemaining := some "4999" })
        (fun _ => 0) abcClient
      = Except.ok (abcClient,
          { code := 200, rateLimitRemaining := some "4999" }, 1) :=
  do_request_returns_first_non4xx _ _ abcClient 0 (by decide)
    (fun i hi => absurd hi (Nat.not_lt_zero i)) (by decide) (fun raw hr => by
      have h9 : "4999" = raw := by simpa using hr
      rw [← h9]
      decide)

/-! ### Claim C6 (low-quota response rotates to another credential) -/

theorem token_header_inj {a b : String}
    (h : "token " ++ a = "token " ++ b) : a = b := by
  have hd := congrArg String.data h
  simp only [String.data_append] at hd
  exact String.ext (List.append_cancel_left hd)

/-- After `startService` or a selecting rotation the cycle cursor sits one
past the active credential's ring position, so one full probing cycle ends
at the active position: the cycle from the cursor splits as the other
positions followed by the active one. -/
theorem cycleFrom_cursor_split (tokens : List String) (p : Nat)
    (hp : p < tokens.length) :
    cycleFrom tokens ((p + 1) % tokens.length) tokens.length
      = cycleFrom tokens ((p + 1) % tokens.length) (tokens.length - 1)
        ++ [tokens.get ⟨p, hp⟩] := by
  have hn : 0 < tokens.length := Nat.lt_of_le_of_lt (Nat.zero_le _) hp
  have ha := cycleFrom_append tokens (tokens.length - 1) 1 ((p + 1) % tokens.length)
  rw [show tokens.length - 1 + 1 = tokens.length by omega] at ha
  rw [ha]
  congr 1
  show [ringGet tokens ((p + 1) % tokens.length + (tokens.length - 1))] = _
  have hmod : ((p + 1) % tokens.length + (tokens.length - 1)) % tokens.length = p := by
    rw [Nat.mod_add_mod, show p + 1 + (tokens.length - 1) = p + tokens.length by omega,
      Nat.add_mod_right, Nat.mod_eq_of_lt hp]
  rw [ringGet, hmod, List.getD_eq_getElem tokens "" hp]
  rfl

/-- Claim C6, amended with pairwise-distinct credentials: when an attempt's
non-4xx response carries a parseable quota signal at or below the
threshold, and some credential at a ring position other than the active one
probes strictly above the threshold, the executor returns that response
after the proactive rotation and the next request is issued with a
different credential than the one that received the low-quota response. -/
theorem low_quota_response_switches_credential
    (respOf : Nat → Response) (quota : String → Int) (s : GithubClient)
    (p : Nat) (v : Int) (raw : String)
    (hnd : s.tokens.Nodup)
    (hp : p < s.tokens.length)
    (hcur : s.cursor = (p + 1) % s.tokens.length)
    (hact : activeAuth s = some ("token " ++ s.tokens.get ⟨p, hp⟩))
    (hm : 0 < s.max_retries)
    (hcode : ¬ (respOf 0).code / 100 = 4)
    (hraw : (respOf 0).rateLimitRemaining = some raw)
    (hv : pyInt raw = some v)
    (hle : v ≤ s.rotate_at)
    (hq : ∃ q, ∃ hql : q < s.tokens.length,
      q ≠ p ∧ quota (s.tokens.get ⟨q, hql⟩) > s.rotate_at) :
    do_request respOf quota s = Except.ok (rotStep quota s, respOf 0, 1) ∧
    activeAuth (rotStep quota s) ≠ activeAuth s := by
  obtain ⟨q, hql, hqp, hqgt⟩ := hq
  have hn : 0 < s.tokens.length := Nat.lt_of_le_of_lt (Nat.zero_le _) hp
  constructor
  · obtain ⟨f1, hf1⟩ : ∃ f1, s.max_retries = f1 + 1 :=
      ⟨s.max_retries - 1, by omega⟩
    rw [do_request, hf1]
    conv_lhs => rw [doRequestAux]
    simp [hcode, hraw, hv, hle]
  · -- the probing cycle starting at the cursor ends at the active position
    have hsplit := cycleFrom_cursor_split s.tokens p hp
    rw [← hcur] at hsplit
    have hperm := cycleFrom_full_perm s.tokens s.cursor hn
    have hcycnd : (cycleFrom s.tokens s.cursor s.tokens.length).Nodup :=
      hperm.nodup_iff.mpr hnd
    -- the qualifying token of another position lies before the active one
    have hqmem : s.tokens.get ⟨q, hql⟩ ∈
        cycleFrom s.tokens s.cursor (s.tokens.length - 1) := by
      have hmemcyc : s.tokens.get ⟨q, hql⟩ ∈
          cycleFrom s.tokens s.cursor s.tokens.length :=
        hperm.mem_iff.mpr (List.get_mem s.tokens q hql)
      rw [hsplit] at hmemcyc
      rcases List.mem_append.mp hmemcyc with h | h
      · exact h
      · exfalso
        have hgets : s.tokens.get ⟨q, hql⟩ = s.tokens.get ⟨p, hp⟩ := by
          simpa using h
        exact hqp (by simpa using (hnd.get_inj_iff.mp hgets))
    -- hence the rotation finds some qualifying token before the active one
    have hex : ∃ u, (cycleFrom s.tokens s.cursor (s.tokens.length - 1)).find?
        (fun t => decide (quota t > s.rotate_at)) = some u :=
      Option.isSome_iff_exists.mp (List.find?_isSome.mpr
        ⟨s.tokens.get ⟨q, hql⟩, hqmem, by simpa using hqgt⟩)
    obtain ⟨u, hu⟩ := hex
    have hfind : (cycleFrom s.tokens s.cursor s.tokens.length).find?
        (fun t => decide (quota t > s.rotate_at)) = some u := by
      rw [hsplit, List.find?_append, hu]
      rfl
    -- the selected token differs from the active one
    have humem : u ∈ cycleFrom s.tokens s.cursor (s.tokens.length - 1) :=
      List.mem_of_find?_eq_some hu
    have hdisj : (cycleFrom s.tokens s.cursor (s.tokens.length - 1)).Disjoint
        [s.tokens.get ⟨p, hp⟩] := by
      rw [hsplit] at hcycnd
      exact (List.nodup_append.mp hcycnd).2.2
    have hne : u ≠ s.tokens.get ⟨p, hp⟩ := by
      intro he
      exact hdisj humem (by rw [he]; exact List.mem_singleton_self _)
    -- read off the new active credential
    obtain ⟨_, _, _, _, h5⟩ := rotateAux_char quota s.tokens.length s
    rw [hfind] at h5
    have h5' : (rotateAux quota s.tokens.length s).1.headers
        = dictInsert s.headers "Authorization" ("token " ++ u) := h5
    have hnew : activeAuth (rotStep quota s) = some ("token " ++ u) := by
      show dictLookup (rotateAux quota s.tokens.length s).1.headers "Authorization"
          = some ("token " ++ u)
      rw [h5', dictLookup_dictInsert_self]
    rw [hnew, hact]
    intro he
    exact hne (token_header_inj (by simpa using he))

/-- Ring `a, a, b` with active `a` at position 0 and the cursor one past
it, as after service start. -/
def dupTokenClient : GithubClient :=
  { tokens := ["a", "a", "b"], cursor := 1, rotate_at := 1000,
    max_retries := 5, headers := [("Authorization", "token a")] }

/-- Remote quotas with only `b` probing above the threshold among distinct
values, but duplicates of `a` probing 2000. -/
def dupQuota : String → Int :=
  fun t => if t == "b" then 5000 else 2000

/-- A transport that always answers 200 with remaining quota 900. -/
def lowQuotaResp : Nat → Response :=
  fun _ => { code := 200, rateLimitRemaining := some "900" }

/-- Ring `a, b` with active `a` at position 0 and the cursor one past it. -/
def abClient : GithubClient :=
  { tokens := ["a", "b"], cursor := 1, rotate_at := 1000,
    max_retries := 5, headers := [("Authorization", "token a")] }

/-- Remote quotas where only `b` probes above the threshold. -/
def abQuota : String → Int :=
  fun t => if t == "b" then 5000 else 0

/-- Counterexample to C6 as stated: with the duplicate-bearing ring
`a, a, b`, active credential `a` at position 0 (cursor at 1), a 200
response carrying remaining quota 900 (at or below the threshold 1000)
triggers the proactive rotation; credential `b` (a different credential)
probes 5000, above the threshold, yet the rotation probes the duplicate of
`a` at position 1 first, which probes 2000, so the next request is issued
with the same credential `a` that received the low-quota response. -/
theorem low_quota_response_keeps_credential_counterexample :
    activeAuth dupTokenClient = some ("token " ++ "a") ∧
    dupQuota "b" > 1000 ∧
    ("b" : String) ≠ "a" ∧
    pyInt "900" = some 900 ∧
    do_request lowQuotaResp dupQuota dupTokenClient
      = Except.ok ({ dupTokenClient with cursor := 2 }, lowQuotaResp 0, 1) ∧
    activeAuth { dupTokenClient with cursor := 2 } = activeAuth dupTokenClient :=
  ⟨rfl, by decide, by decide, by decide, rfl, rfl⟩

/-- Witness for the amended C6: with distinct ring `a, b`, active `a`
(cursor at 1), a low-quota 200 response makes the rotation select `b`, so
the next request carries a different credential. -/
theorem low_quota_response_switches_credential_witness :
    do_request lowQuotaResp abQuota abClient
      = Except.ok (rotStep abQuota abClient, lowQuotaResp 0, 1) ∧
    activeAuth (rotStep abQuota abClient) ≠ activeAuth abClient :=
  low_quota_response_switches_credential lowQuotaResp abQuota abClient
    0 900 "900" (by decide) (by decide) (by decide) (by decide) (by decide)
    (by decide) (by decide) (by decide) (by decide)
    ⟨1, by decide, by decide, by decide⟩

end Ursabot
